import Mathlib

/-!
Shallow embedding of the build-time link-graph / backlink / search-index
pipeline of the garden-madness repository.

The executable core of the repository consists of three build scripts
embedded in the step documents:
* `generateBacklinks`   (src/lib/generate-backlinks.js, step 9)
* `generateSearchIndex` (src/lib/generate-search-index.js, step 10)
* `generateGraphData`   (src/lib/generate-graph-data.js, step 11)

Each is translated here as a pure function over an in-memory corpus
(`List Document`).  A `Document` models one content-collection entry:
`slug` is `entry.slug`, `title` is `entry.data.title`, `collection` is
`entry.collection`, `description`/`summary` are the optional front-matter
fields, and `body` is the rendered text content that the scripts scan
with the regex `\[\[(.*?)\]\]` (the string the scripts call
`textContent`).
-/

namespace Garden

/-- One content-collection entry, as the build scripts see it. -/
structure Document where
  slug : String
  title : String
  collection : String
  description : Option String
  summary : Option String
  body : String
deriving DecidableEq, Repr

/-- `s.toLowerCase()` on the character list (ASCII case fold, which is
all the corpus titles exercise). -/
def lowerStr (s : String) : String :=
  String.mk (s.data.map Char.toLower)

/-- Strict lexicographic order on identifiers, char by char (the order
`localeCompare` / `<` induce on ASCII slugs). -/
def lexLt : List Char → List Char → Bool
  | [], [] => false
  | [], _ :: _ => true
  | _ :: _, [] => false
  | a :: as, b :: bs => if a < b then true else if b < a then false else lexLt as bs

/-- `a` is lexicographically strictly smaller than `b`. -/
def slugLt (a b : String) : Bool := lexLt a.data b.data

/-- Checks a list of identifiers for ascending lexicographic order
(every adjacent pair non-decreasing). -/
def sortedById : List String → Bool
  | a :: b :: rest => !slugLt b a && sortedById (b :: rest)
  | _ => true

/-- The global regex scan `/\[\[(.*?)\]\]/g` used by both
`generateBacklinks` and `generateGraphData`, as a left-to-right scanner
over the character list.  `inside = none` means we are looking for an
opening `[[`; `inside = some acc` means an opening `[[` has been seen and
`acc` holds the capture so far (reversed).  A JavaScript `.` does not
match a newline, so a pending capture is abandoned when `'\n'` is hit
before a closing `]]`; the capture is the non-greedy (shortest) match up
to the first `]]`. -/
def scanLinks : Option (List Char) → List Char → List String
  | none, '[' :: '[' :: rest => scanLinks (some []) rest
  | none, _ :: rest => scanLinks none rest
  | none, [] => []
  | some acc, ']' :: ']' :: rest => String.mk acc.reverse :: scanLinks none rest
  | some _, '\n' :: rest => scanLinks none rest
  | some acc, c :: rest => scanLinks (some (c :: acc)) rest
  | some _, [] => []

/-- All captures of `/\[\[(.*?)\]\]/g` over a document body, in match
order. -/
def linkMatches (body : String) : List String :=
  scanLinks none body.data

/-- The `titleToSlugMap` (step 9) / `slugToTitleMap` (step 11, despite
its name it maps lowercased title to slug) built by
`map.set(entry.data.title.toLowerCase(), entry.slug)` over the corpus in
order.  Represented as the association list of `set` calls; a later
binding for the same key overwrites an earlier one, which lookup models
by searching the reversed list. -/
def titleToSlugMap (docs : List Document) : List (String × String) :=
  docs.map (fun d => (lowerStr d.title, d.slug))

/-- `map.get(linkedTitle.toLowerCase())`: the value of the last `set`
for that key, if any. -/
def resolveTitle (docs : List Document) (raw : String) : Option String :=
  (titleToSlugMap docs).reverse.lookup (lowerStr raw)

/-- The scripts guard the resolved slug with JavaScript truthiness
(`if (targetSlug)` / `if (targetId)`): an empty-string slug counts as
unresolved. -/
def truthyResolve (docs : List Document) (raw : String) : Option String :=
  match resolveTitle docs raw with
  | some t => if t = "" then none else some t
  | none => none

/-- A node of `graph-data.json`: `{ id, label, group, url }`. -/
structure Node where
  id : String
  label : String
  group : String
  url : String
deriving DecidableEq, Repr

/-- An edge of `graph-data.json`: `{ from, to, arrows: 'to' }` (the
constant `arrows` field is omitted; `from` is a Lean keyword, hence
`fromId`/`toId`). -/
structure Edge where
  fromId : String
  toId : String
deriving DecidableEq, Repr

/-- The `graph-data.json` artifact. -/
structure GraphData where
  nodes : List Node
  edges : List Edge
deriving DecidableEq, Repr

/-- The output of `generateBacklinks`: the `backlinks` object (keys in
insertion order, each value the array of source slugs in push order) and
the sequence of `console.warn` messages, each recorded as
(source slug, raw linked title). -/
structure BacklinksOutput where
  backlinks : List (String × List String)
  warnings : List (String × String)
deriving DecidableEq, Repr

/-- `if (!backlinks[t]) backlinks[t] = []; if (!backlinks[t].includes(s))
backlinks[t].push(s)` on the insertion-ordered object. -/
def addBacklink (bl : List (String × List String)) (target source : String) :
    List (String × List String) :=
  match bl with
  | [] => [(target, [source])]
  | (t, ss) :: rest =>
    if t = target then
      (t, if source ∈ ss then ss else ss ++ [source]) :: rest
    else
      (t, ss) :: addBacklink rest target source

/-- The body of the `while ((match = regex.exec(textContent)))` loop of
`generateBacklinks` for one capture `raw` of the document `slug`. -/
def processRef (docs : List Document) (slug : String) (out : BacklinksOutput)
    (raw : String) : BacklinksOutput :=
  match truthyResolve docs raw with
  | some target => { out with backlinks := addBacklink out.backlinks target slug }
  | none => { out with warnings := out.warnings ++ [(slug, raw)] }

/-- `generateBacklinks` (src/lib/generate-backlinks.js): builds the
title map over the whole corpus, then for every document scans the body
and either records a backlink (resolved) or a warning (unresolved). -/
def generateBacklinks (docs : List Document) : BacklinksOutput :=
  docs.foldl
    (fun out d => (linkMatches d.body).foldl (processRef docs d.slug) out)
    ⟨[], []⟩

/-- `generateGraphData` (src/lib/generate-graph-data.js): first pass
pushes one node per document (corpus order) and builds the title map;
second pass scans every body and pushes one edge per resolved capture.
Unresolved captures are skipped silently. -/
def generateGraphData (docs : List Document) : GraphData :=
  { nodes := docs.map (fun d =>
      { id := d.slug, label := d.title, group := d.collection
        url := "/" ++ d.collection ++ "/" ++ d.slug })
    edges := docs.foldl
      (fun es d => (linkMatches d.body).foldl
        (fun es raw =>
          match truthyResolve docs raw with
          | some target => es ++ [⟨d.slug, target⟩]
          | none => es)
        es)
      [] }

/-- JavaScript `a || b || ''` on the two optional front-matter fields. -/
def firstTruthy (a b : Option String) : String :=
  match a with
  | some s => if s = "" then (match b with | some t => t | none => "") else s
  | none => match b with | some t => t | none => ""

/-- One entry of the `documents` array handed to the lunr builder in
`generateSearchIndex`. -/
structure SearchDoc where
  id : String
  title : String
  description : String
  content : String
deriving DecidableEq, Repr

/-- One entry of the `store` object of `search-index.json`. -/
structure StoreEntry where
  title : String
  description : String
  url : String
deriving DecidableEq, Repr

/-- The deterministic content of `search-index.json`: the document list
fed to lunr (in corpus order) and the display store.  The serialized
lunr index itself is a function of the `documents` list and the fixed
builder configuration (`ref('id')`, `field('title', boost 10)`,
`field('description')`, `field('content')`). -/
structure SearchData where
  documents : List SearchDoc
  store : List (String × StoreEntry)
deriving DecidableEq, Repr

/-- `generateSearchIndex` (src/lib/generate-search-index.js), up to the
lunr builder: collects per-document fields
(`description || summary || ''`) and the store entries. -/
def generateSearchIndex (docs : List Document) : SearchData :=
  { documents := docs.map (fun d =>
      { id := d.slug, title := d.title
        description := firstTruthy d.description d.summary
        content := d.body })
    store := docs.map (fun d =>
      (d.slug,
        { title := d.title
          description := firstTruthy d.description d.summary
          url := "/" ++ d.collection ++ "/" ++ d.slug })) }

/-- `backlinksData[currentSlug] || []` as read by Backlinks.astro. -/
def blLookup (bl : List (String × List String)) (t : String) : List String :=
  match bl.find? (fun e => e.1 == t) with
  | some e => e.2
  | none => []

/-- All `(source slug, raw capture)` occurrences over the corpus, in
scan order. -/
def allRefs (docs : List Document) : List (String × String) :=
  docs.flatMap (fun d => (linkMatches d.body).map (fun r => (d.slug, r)))

/-- The occurrences whose capture resolves (truthily), as
`(source slug, target slug)` pairs in scan order. -/
def resolvedOccs (docs : List Document) : List (String × String) :=
  (allRefs docs).filterMap
    (fun p => (truthyResolve docs p.2).map (fun t => (p.1, t)))

/-- The occurrences whose capture fails to resolve, in scan order. -/
def unresolvedRefs (docs : List Document) : List (String × String) :=
  (allRefs docs).filter (fun p => (truthyResolve docs p.2).isNone)

/-- Splits a lowercased character stream into maximal alphanumeric
runs; `acc` holds the current run (reversed). -/
def splitTokens : List Char → List Char → List String
  | acc, [] => if acc.isEmpty then [] else [String.mk acc.reverse]
  | acc, c :: rest =>
    if c.isAlphanum then splitTokens (c :: acc) rest
    else if acc.isEmpty then splitTokens [] rest
    else String.mk acc.reverse :: splitTokens [] rest

/-- Modelled from the spec: the tokenizer of the search indexer
("tokenizes configured fields …, discarding a configurable stopword set
and normalizing case") — the actual tokenizer lives in the external lunr
library, not in src/.  Lowercase, split on non-alphanumeric characters,
drop empty tokens; no stopwords are configured in the builder. -/
def tokenize (s : String) : List String :=
  splitTokens [] (lowerStr s).data

/-- Number of occurrences of `term` among the tokens of one field. -/
def tf (term : String) (text : String) : Nat :=
  (tokenize text).count term

/-- The boost the builder sets on the title field
(`this.field('title', { boost: 10 })`); `description` and `content` keep
the default weight 1. -/
def titleBoost : Nat := 10

/-- Modelled from the spec: the query-time score — "term-frequency
weighted by field multiplier, summed across matching fields" (§4.5).
The scorer itself is implemented by the external lunr library and is not
part of src/; the field multipliers are the ones the builder in
`generateSearchIndex` configures. -/
def score (term : String) (d : SearchDoc) : Nat :=
  titleBoost * tf term d.title + tf term d.description + tf term d.content

/-- Modelled from the spec: result order — "descending sort, stable
tie-break by document identifier" (§4.5).  `a` is listed strictly above
`b` when it scores higher, or scores equal with the smaller
identifier. -/
abbrev ranksAbove (term : String) (a b : SearchDoc) : Prop :=
  score term a > score term b ∨
    (score term a = score term b ∧ slugLt a.id b.id = true)

/-- The three artifacts of one build, as abstract byte streams: the
writes are `JSON.stringify` of the in-memory structures, so the bytes
are an injective image of the structures rendered here. -/
def buildArtifacts (docs : List Document) : String × String × String :=
  (reprStr (generateGraphData docs),
   reprStr (generateBacklinks docs),
   reprStr (generateSearchIndex docs))

/-- The number of scan captures of one document that resolve (truthily)
to the target slug `t` — the number of resolved references from `d` to
`t`. -/
def resolvedRefCount (docs : List Document) (d : Document) (t : String) : Nat :=
  ((linkMatches d.body).filter (fun r => truthyResolve docs r == some t)).length

/-- Corpus with two documents whose titles collide after lowercasing
("Foo" and "foo") and a third document referencing the title. -/
def c1docs : List Document :=
  [⟨"a", "Foo", "notes", none, none, ""⟩,
   ⟨"b", "foo", "notes", none, none, ""⟩,
   ⟨"c", "Chapter", "notes", none, none, "see [[Foo]]"⟩]

/-- Corpus whose only reference marker sits inside a fenced code span. -/
def c2docs : List Document :=
  [⟨"a", "Apple", "notes", none, none, "no links"⟩,
   ⟨"b", "Bravo", "notes", none, none, "```\n[[Apple]]\n```"⟩]

/-- Corpus with exactly one reference, whose target title does not
exist. -/
def c3docs : List Document :=
  [⟨"a", "Apple", "notes", none, none, "see [[Banana]]"⟩]

/-- Corpus with a title containing a single space and a reference
differing from it only in a doubled space. -/
def c5docs : List Document :=
  [⟨"a", "Foo Bar", "notes", none, none, ""⟩,
   ⟨"c", "Chapter", "notes", none, none, "see [[Foo  Bar]]"⟩]

/-- Corpus whose identifiers arrive in descending order. -/
def c6docs : List Document :=
  [⟨"b", "Bravo", "notes", none, none, ""⟩,
   ⟨"a", "Alpha", "notes", none, none, ""⟩]

/-- Corpus with one resolved reference, for exercising the edge
invariants. -/
def c7docs : List Document :=
  [⟨"a", "Apple", "notes", none, none, "see [[Banana]]"⟩,
   ⟨"b", "Banana", "notes", none, none, "x"⟩]

/-- Search document whose title alone contains the query term. -/
def c8docA : SearchDoc := ⟨"a", "apple", "", "nothing here"⟩

/-- Search document whose body contains the query term eleven times and
whose other fields do not contain it. -/
def c8docB : SearchDoc :=
  ⟨"b", "pear", "", "apple apple apple apple apple apple apple apple apple apple apple"⟩

/-- The corpus producing `c8docA` and `c8docB` as search documents. -/
def c8docs : List Document :=
  [⟨"a", "apple", "notes", none, none, "nothing here"⟩,
   ⟨"b", "pear", "notes", none, none,
     "apple apple apple apple apple apple apple apple apple apple apple"⟩]

/-- Title-only match with a small body-only competitor. -/
def c8wA : SearchDoc := ⟨"a", "apple", "", "nothing here"⟩

/-- Body-only match with term frequency 2. -/
def c8wB : SearchDoc := ⟨"b", "pear", "", "apple apple"⟩

/-- The corpus producing `c8wA` and `c8wB` as search documents. -/
def c8wdocs : List Document :=
  [⟨"a", "apple", "notes", none, none, "nothing here"⟩,
   ⟨"b", "pear", "notes", none, none, "apple apple"⟩]

/-- A small two-collection corpus exercising all three generators. -/
def c9docs : List Document :=
  [⟨"a", "Apple", "notes", some "fruit", none, "see [[Banana]]"⟩,
   ⟨"b", "Banana", "concepts", none, some "yellow", "no links"⟩]

/-- Document with two references to the same target. -/
def c10doc : Document :=
  ⟨"a", "Apple", "notes", none, none, "see [[Banana]] and again [[Banana]]"⟩

/-- Corpus containing `c10doc` and its target. -/
def c10docs : List Document :=
  [c10doc, ⟨"b", "Banana", "notes", none, none, "x"⟩]

/-! ## Characterization lemmas -/

/-- Folding the per-capture loop body over a capture list appends one warning per unresolved capture, in order. -/
theorem warnings_foldl_refs (docs : List Document) (slug : String) :
    ∀ (raws : List String) (out : BacklinksOutput),
      ((raws.foldl (processRef docs slug) out)).warnings
        = out.warnings
          ++ (raws.filter (fun r => (truthyResolve docs r).isNone)).map (fun r => (slug, r))
  | [], out => by simp
  | r :: rs, out => by
    rw [List.foldl_cons, warnings_foldl_refs docs slug rs]
    unfold processRef
    cases h : truthyResolve docs r <;> simp [h]

/-- The same fold threads the backlink object through `addBacklink` for exactly the resolved captures, in order. -/
theorem backlinks_foldl_refs (docs : List Document) (slug : String) :
    ∀ (raws : List String) (out : BacklinksOutput),
      ((raws.foldl (processRef docs slug) out)).backlinks
        = ((raws.filterMap (fun r => truthyResolve docs r)).foldl
            (fun bl t => addBacklink bl t slug) out.backlinks)
  | [], out => by simp
  | r :: rs, out => by
    rw [List.foldl_cons, backlinks_foldl_refs docs slug rs]
    unfold processRef
    cases h : truthyResolve docs r <;> simp [h]

/-- The document-level fold of `generateBacklinks` accumulates the per-document unresolved warnings in corpus order. -/
theorem warnings_outer (docs : List Document) :
    ∀ (l : List Document) (out : BacklinksOutput),
      (l.foldl (fun out d => (linkMatches d.body).foldl (processRef docs d.slug) out) out).warnings
        = out.warnings
          ++ l.flatMap (fun d =>
              ((linkMatches d.body).filter (fun r => (truthyResolve docs r).isNone)).map
                (fun r => (d.slug, r)))
  | [], out => by simp
  | d :: l, out => by
    rw [List.foldl_cons, warnings_outer docs l, warnings_foldl_refs docs d.slug]
    simp

/-- Filtering the flattened occurrence list for unresolved captures equals flattening the per-document filters. -/
theorem unresolvedRefs_eq (docs : List Document) :
    ∀ (l : List Document),
      (l.flatMap (fun d => (linkMatches d.body).map (fun r => (d.slug, r)))).filter
          (fun p => (truthyResolve docs p.2).isNone)
        = l.flatMap (fun d =>
            ((linkMatches d.body).filter (fun r => (truthyResolve docs r).isNone)).map
              (fun r => (d.slug, r)))
  | [] => by simp
  | d :: l => by
    rw [List.flatMap_cons, List.flatMap_cons, List.filter_append, unresolvedRefs_eq docs l,
      List.filter_map]
    rfl

/-- The warnings of `generateBacklinks` are exactly the unresolved occurrences, in scan order. -/
theorem generateBacklinks_warnings (docs : List Document) :
    (generateBacklinks docs).warnings = unresolvedRefs docs := by
  rw [generateBacklinks, warnings_outer docs docs, unresolvedRefs, allRefs, unresolvedRefs_eq]
  rfl

/-- The per-capture edge loop appends one edge per resolved capture, in order. -/
theorem edges_foldl_refs (docs : List Document) (slug : String) :
    ∀ (raws : List String) (es : List Edge),
      (raws.foldl
          (fun es raw =>
            match truthyResolve docs raw with
            | some target => es ++ [⟨slug, target⟩]
            | none => es) es)
        = es ++ (raws.filterMap
            (fun r => (truthyResolve docs r).map (fun t => Edge.mk slug t)))
  | [], es => by simp
  | r :: rs, es => by
    rw [List.foldl_cons, edges_foldl_refs docs slug rs]
    cases h : truthyResolve docs r <;> simp [h]

/-- The document-level edge fold flattens the per-document resolved edges in corpus order. -/
theorem edges_outer (docs : List Document) :
    ∀ (l : List Document) (es : List Edge),
      (l.foldl
          (fun es d => (linkMatches d.body).foldl
            (fun es raw =>
              match truthyResolve docs raw with
              | some target => es ++ [⟨d.slug, target⟩]
              | none => es) es) es)
        = es ++ l.flatMap (fun d =>
            (linkMatches d.body).filterMap
              (fun r => (truthyResolve docs r).map (fun t => Edge.mk d.slug t)))
  | [], es => by simp
  | d :: l, es => by
    rw [List.foldl_cons, edges_outer docs l, edges_foldl_refs docs d.slug]
    simp

/-- The resolved occurrences of a flattened scan equal the flattened per-document resolved occurrences. -/
theorem resolvedOccs_eq (docs : List Document) :
    ∀ (l : List Document),
      (l.flatMap (fun d => (linkMatches d.body).map (fun r => (d.slug, r)))).filterMap
          (fun p => (truthyResolve docs p.2).map (fun t => (p.1, t)))
        = l.flatMap (fun d =>
            (linkMatches d.body).filterMap
              (fun r => (truthyResolve docs r).map (fun t => (d.slug, t))))
  | [] => by simp
  | d :: l => by
    rw [List.flatMap_cons, List.flatMap_cons, List.filterMap_append, resolvedOccs_eq docs l,
      List.filterMap_map]
    rfl

/-- The edge list of `generateGraphData` is the resolved occurrence list, one edge per occurrence, in scan order. -/
theorem generateGraphData_edges (docs : List Document) :
    (generateGraphData docs).edges = (resolvedOccs docs).map (fun o => Edge.mk o.1 o.2) := by
  rw [generateGraphData]
  rw [resolvedOccs, allRefs, resolvedOccs_eq]
  rw [edges_outer docs docs]
  simp only [List.map_flatMap, List.map_filterMap, Option.map_map, Function.comp_def,
    List.nil_append]

/-- The document-level fold of `generateBacklinks` threads `addBacklink` over the resolved occurrences in scan order. -/
theorem backlinks_outer (docs : List Document) :
    ∀ (l : List Document) (out : BacklinksOutput),
      (l.foldl (fun out d => (linkMatches d.body).foldl (processRef docs d.slug) out) out).backlinks
        = (l.flatMap (fun d =>
            (linkMatches d.body).filterMap
              (fun r => (truthyResolve docs r).map (fun t => (d.slug, t))))).foldl
            (fun bl o => addBacklink bl o.2 o.1) out.backlinks
  | [], out => by simp
  | d :: l, out => by
    rw [List.foldl_cons, backlinks_outer docs l, backlinks_foldl_refs docs d.slug,
      List.flatMap_cons, List.foldl_append]
    congr 1
    rw [← List.foldl_map (fun t => (d.slug, t)) (fun bl o => addBacklink bl o.2 o.1)]
    rw [List.map_filterMap]

/-- The backlink object of `generateBacklinks` is the `addBacklink` fold over the resolved occurrences. -/
theorem generateBacklinks_backlinks (docs : List Document) :
    (generateBacklinks docs).backlinks
      = (resolvedOccs docs).foldl (fun bl o => addBacklink bl o.2 o.1) [] := by
  rw [generateBacklinks, backlinks_outer docs docs, resolvedOccs, allRefs, resolvedOccs_eq]

/-- Lookup in the empty backlink object yields the empty list. -/
theorem blLookup_nil (b : String) : blLookup [] b = [] := rfl

/-- Lookup steps through one entry of the backlink object. -/
theorem blLookup_cons (t b : String) (ss : List String)
    (rest : List (String × List String)) :
    blLookup ((t, ss) :: rest) b = if t = b then ss else blLookup rest b := by
  by_cases h : t = b
  · subst h
    simp [blLookup, List.find?]
  · have hb : (t == b) = false := by simp [h]
    simp [blLookup, List.find?, hb, h]

/-- Membership after one `addBacklink`: the new pair is present, everything else is unchanged. -/
theorem mem_blLookup_addBacklink (a t s b : String)
    (bl : List (String × List String)) :
    a ∈ blLookup (addBacklink bl t s) b ↔ a ∈ blLookup bl b ∨ (a = s ∧ b = t) := by
  induction bl with
  | nil =>
    rw [show addBacklink [] t s = [(t, [s])] from rfl, blLookup_cons, blLookup_nil]
    by_cases hbt : t = b
    · subst hbt
      simp
    · rw [if_neg hbt]
      constructor
      · intro h
        exact absurd h (List.not_mem_nil a)
      · rintro (h | ⟨-, h2⟩)
        · exact h
        · exact absurd h2.symm hbt
  | cons e rest ih =>
    obtain ⟨t₀, ss⟩ := e
    simp only [addBacklink]
    by_cases h₀ : t₀ = t
    · rw [if_pos h₀, blLookup_cons, blLookup_cons]
      by_cases hb : t₀ = b
      · rw [if_pos hb, if_pos hb]
        by_cases hs : s ∈ ss
        · rw [if_pos hs]
          constructor
          · exact fun h => Or.inl h
          · rintro (h | ⟨rfl, -⟩)
            · exact h
            · exact hs
        · rw [if_neg hs, List.mem_append, List.mem_singleton]
          constructor
          · rintro (h | rfl)
            · exact Or.inl h
            · exact Or.inr ⟨rfl, (h₀ ▸ hb : t = b).symm⟩
          · rintro (h | ⟨rfl, -⟩)
            · exact Or.inl h
            · exact Or.inr rfl
      · rw [if_neg hb, if_neg hb]
        constructor
        · exact fun h => Or.inl h
        · rintro (h | ⟨-, h2⟩)
          · exact h
          · exact absurd (h₀ ▸ h2.symm) hb
    · rw [if_neg h₀, blLookup_cons, blLookup_cons]
      by_cases hb : t₀ = b
      · rw [if_pos hb, if_pos hb]
        constructor
        · exact fun h => Or.inl h
        · rintro (h | ⟨-, h2⟩)
          · exact h
          · exact absurd (h2 ▸ hb) h₀
      · rw [if_neg hb, if_neg hb]
        exact ih

/-- Membership after folding `addBacklink` over an occurrence list: present iff present before or occurring in the list. -/
theorem mem_blLookup_foldl (a b : String) :
    ∀ (occs : List (String × String)) (bl : List (String × List String)),
      a ∈ blLookup (occs.foldl (fun bl o => addBacklink bl o.2 o.1) bl) b
        ↔ a ∈ blLookup bl b ∨ (a, b) ∈ occs
  | [], bl => by simp
  | o :: os, bl => by
    rw [List.foldl_cons, mem_blLookup_foldl a b os, mem_blLookup_addBacklink]
    constructor
    · rintro ((h | ⟨rfl, rfl⟩) | h)
      · exact Or.inl h
      · exact Or.inr (by simp)
      · exact Or.inr (List.mem_cons_of_mem _ h)
    · rintro (h | h)
      · exact Or.inl (Or.inl h)
      · rcases List.mem_cons.mp h with h | h
        · exact Or.inl (Or.inr ⟨congrArg Prod.fst h, congrArg Prod.snd h⟩)
        · exact Or.inr h

/-- `addBacklink` preserves duplicate-freeness of every source array (the `includes` guard). -/
theorem addBacklink_valsNodup (t s : String) :
    ∀ (bl : List (String × List String)),
      (∀ e ∈ bl, e.2.Nodup) → ∀ e ∈ addBacklink bl t s, e.2.Nodup
  | [], _ => by
    intro e he
    rw [show addBacklink [] t s = [(t, [s])] from rfl] at he
    rcases List.mem_singleton.mp he with rfl
    simp
  | (t₀, ss) :: rest, h => by
    intro e he
    simp only [addBacklink] at he
    by_cases h₀ : t₀ = t
    · rw [if_pos h₀] at he
      rcases List.mem_cons.mp he with rfl | hmem
      · by_cases hs : s ∈ ss
        · rw [if_pos hs]
          exact h (t₀, ss) (List.mem_cons_self _ _)
        · rw [if_neg hs]
          refine List.Nodup.append (h (t₀, ss) (List.mem_cons_self _ _)) (by simp) ?_
          intro x hx hx'
          rcases List.mem_singleton.mp hx' with rfl
          exact hs hx
      · exact h e (List.mem_cons_of_mem _ hmem)
    · rw [if_neg h₀] at he
      rcases List.mem_cons.mp he with rfl | hmem
      · exact h (t₀, ss) (List.mem_cons_self _ _)
      · exact addBacklink_valsNodup t s rest
          (fun e' he' => h e' (List.mem_cons_of_mem _ he')) e hmem

/-- Folding `addBacklink` preserves duplicate-freeness of every source array. -/
theorem foldl_valsNodup :
    ∀ (occs : List (String × String)) (bl : List (String × List String)),
      (∀ e ∈ bl, e.2.Nodup) →
      ∀ e ∈ occs.foldl (fun bl o => addBacklink bl o.2 o.1) bl, e.2.Nodup
  | [], bl, h => h
  | o :: os, bl, h => by
    rw [List.foldl_cons]
    exact foldl_valsNodup os _ (addBacklink_valsNodup o.2 o.1 bl h)

/-- In a backlink object with duplicate-free source arrays, a present source is counted exactly once. -/
theorem count_blLookup_eq_one (a b : String) (bl : List (String × List String))
    (hnd : ∀ e ∈ bl, e.2.Nodup) (h : a ∈ blLookup bl b) :
    (blLookup bl b).count a = 1 := by
  have hnod : (blLookup bl b).Nodup := by
    unfold blLookup
    cases hf : bl.find? (fun e => e.1 == b) with
    | none => simp
    | some e => exact hnd e (List.mem_of_find?_eq_some hf)
  exact List.count_eq_one_of_mem hnod h

/-- A successful association-list lookup returns a stored binding. -/
theorem lookup_mem {k v : String} (m : List (String × String))
    (h : m.lookup k = some v) : (k, v) ∈ m := by
  rcases List.lookup_eq_some_iff.mp h with ⟨l₁, l₂, rfl, -⟩
  simp

/-- A resolved target is the slug of some corpus document. -/
theorem resolveTitle_mem_slugs (docs : List Document) (raw t : String)
    (h : resolveTitle docs raw = some t) : t ∈ docs.map Document.slug := by
  unfold resolveTitle at h
  have hm := lookup_mem _ h
  rw [List.mem_reverse] at hm
  unfold titleToSlugMap at hm
  rcases List.mem_map.mp hm with ⟨d, hd, he⟩
  rcases Prod.mk.injEq .. ▸ he with ⟨-, h2⟩
  exact h2 ▸ List.mem_map_of_mem Document.slug hd

/-- A truthy resolution is a successful, non-empty resolution. -/
theorem truthyResolve_some (docs : List Document) (raw t : String)
    (h : truthyResolve docs raw = some t) : resolveTitle docs raw = some t ∧ t ≠ "" := by
  unfold truthyResolve at h
  cases hr : resolveTitle docs raw with
  | none =>
    rw [hr] at h
    exact absurd h (by simp)
  | some t' =>
    rw [hr] at h
    have h' : (if t' = "" then none else some t') = some t := h
    by_cases ht : t' = ""
    · rw [if_pos ht] at h'
      exact absurd h' (by simp)
    · rw [if_neg ht] at h'
      have ht' : t' = t := Option.some.inj h'
      subst ht'
      exact ⟨rfl, ht⟩

/-- Lookup in the mapped association list is `find?` over the documents. -/
theorem lookup_map_title (k : String) :
    ∀ (l : List Document),
      (l.map (fun d => (lowerStr d.title, d.slug))).lookup k
        = (l.find? (fun d => lowerStr d.title == k)).map Document.slug
  | [] => by simp
  | d :: l => by
    rw [List.map_cons, List.lookup_cons, List.find?]
    by_cases hk : lowerStr d.title = k
    · have h1 : (k == lowerStr d.title) = true := beq_iff_eq.mpr hk.symm
      have h2 : (lowerStr d.title == k) = true := beq_iff_eq.mpr hk
      rw [h1, h2]
      rfl
    · have h1 : (k == lowerStr d.title) = false := by simp [Ne.symm hk]
      have h2 : (lowerStr d.title == k) = false := by simp [hk]
      rw [h1, h2]
      exact lookup_map_title k l

/-- Resolution returns the slug of the last document in corpus order whose lowercased title matches: later `map.set` calls overwrite earlier ones. -/
theorem resolveTitle_last_wins (docs : List Document) (raw : String) :
    resolveTitle docs raw
      = (docs.reverse.find? (fun d => lowerStr d.title == lowerStr raw)).map Document.slug := by
  unfold resolveTitle titleToSlugMap
  rw [← List.map_reverse, lookup_map_title]

/-- Every occurrence either resolves or is unresolved: the two lengths sum to the number of occurrences. -/
theorem length_partition (docs : List Document) :
    ∀ (l : List (String × String)),
      (l.filterMap (fun p => (truthyResolve docs p.2).map (fun t => (p.1, t)))).length
        + (l.filter (fun p => (truthyResolve docs p.2).isNone)).length = l.length
  | [] => rfl
  | p :: l => by
    rw [List.filterMap_cons, List.filter_cons]
    cases h : truthyResolve docs p.2 with
    | none =>
      simp only [h, Option.map_none', Option.isNone_none, if_pos trivial, List.length_cons]
      have := length_partition docs l
      omega
    | some t =>
      have := length_partition docs l
      simp [h]
      omega

/-- The source of any occurrence is a corpus slug. -/
theorem allRefs_fst_mem (docs : List Document) (s r : String)
    (h : (s, r) ∈ allRefs docs) : s ∈ docs.map Document.slug := by
  rcases List.mem_flatMap.mp h with ⟨d, hd, hmem⟩
  rcases List.mem_map.mp hmem with ⟨raw, -, he⟩
  cases he
  exact List.mem_map_of_mem Document.slug hd

/-- A pair is a resolved occurrence iff some capture from that source resolves to that target. -/
theorem mem_resolvedOccs (docs : List Document) (a b : String) :
    (a, b) ∈ resolvedOccs docs
      ↔ ∃ raw, (a, raw) ∈ allRefs docs ∧ truthyResolve docs raw = some b := by
  unfold resolvedOccs
  rw [List.mem_filterMap]
  constructor
  · rintro ⟨⟨s, raw⟩, hmem, hmap⟩
    cases h : truthyResolve docs raw with
    | none =>
      rw [h] at hmap
      exact absurd hmap (by simp)
    | some t =>
      rw [h] at hmap
      have : (s, t) = (a, b) := Option.some.inj hmap
      rcases Prod.mk.injEq .. ▸ this with ⟨rfl, rfl⟩
      exact ⟨raw, hmem, h⟩
  · rintro ⟨raw, hmem, hres⟩
    exact ⟨(a, raw), hmem, by rw [hres]; rfl⟩

/-- The node identifiers of the graph artifact are the corpus slugs in corpus order. -/
theorem nodes_ids (docs : List Document) :
    (generateGraphData docs).nodes.map Node.id = docs.map Document.slug := by
  unfold generateGraphData
  rw [List.map_map]
  rfl

/-- The multiplicity of a (source, target) pair among the resolved captures of one document equals the number of captures resolving to the target. -/
theorem count_filterMap_pairs (docs : List Document) (slug t : String) :
    ∀ (raws : List String),
      ((raws.filterMap
          (fun r => (truthyResolve docs r).map (fun t' => (slug, t')))).count (slug, t))
        = (raws.filter (fun r => truthyResolve docs r == some t)).length
  | [] => rfl
  | r :: raws => by
    rw [List.filterMap_cons, List.filter_cons]
    cases h : truthyResolve docs r with
    | none =>
      simp only [h, Option.map_none']
      have hne : ((none : Option String) == some t) = false := by simp
      simp [hne, count_filterMap_pairs docs slug t raws]
    | some t' =>
      simp only [h, Option.map_some']
      by_cases ht : t' = t
      · subst ht
        simp [List.count_cons, count_filterMap_pairs docs slug t' raws]
      · have hne : (some t' == some t) = false := by simp [ht]
        have hpair : ¬ ((slug, t') = (slug, t)) := by simp [ht]
        simp [hne, List.count_cons, hpair, count_filterMap_pairs docs slug t raws]

/-- Every resolved occurrence of one document carries that document slug as source. -/
theorem mem_doc_occs_fst (docs : List Document) (d' : Document) (x y : String)
    (h : (x, y) ∈ (linkMatches d'.body).filterMap
        (fun r => (truthyResolve docs r).map (fun t' => (d'.slug, t')))) :
    x = d'.slug := by
  rcases List.mem_filterMap.mp h with ⟨r, -, hmap⟩
  cases hr : truthyResolve docs r with
  | none => rw [hr] at hmap; exact absurd hmap (by simp)
  | some t' =>
    rw [hr] at hmap
    have := Option.some.inj hmap
    exact (congrArg Prod.fst this).symm

/-- With duplicate-free slugs, only the one matching document contributes to the multiplicity of its (source, target) pair. -/
theorem count_flatMap_single (docs : List Document) (d : Document) (t : String) :
    ∀ (l : List Document), (l.map Document.slug).Nodup → d ∈ l →
      ((l.flatMap (fun d' => (linkMatches d'.body).filterMap
          (fun r => (truthyResolve docs r).map (fun t' => (d'.slug, t'))))).count (d.slug, t))
        = resolvedRefCount docs d t
  | [], _, hd => absurd hd (List.not_mem_nil d)
  | d' :: l, hnd, hd => by
    rw [List.flatMap_cons, List.count_append]
    rw [List.map_cons, List.nodup_cons] at hnd
    rcases List.mem_cons.mp hd with rfl | hmem
    · have hzero : ((l.flatMap (fun d' => (linkMatches d'.body).filterMap
          (fun r => (truthyResolve docs r).map (fun t' => (d'.slug, t'))))).count (d.slug, t)) = 0 := by
        rw [List.count_eq_zero]
        intro hmem'
        rcases List.mem_flatMap.mp hmem' with ⟨d₂, hd₂, hmem₂⟩
        have hx := mem_doc_occs_fst docs d₂ d.slug t hmem₂
        exact hnd.1 (hx ▸ List.mem_map_of_mem Document.slug hd₂)
      rw [hzero, count_filterMap_pairs]
      rfl
    · have hne : d'.slug ≠ d.slug := by
        intro he
        exact hnd.1 (he ▸ List.mem_map_of_mem Document.slug hmem)
      have hzero : (((linkMatches d'.body).filterMap
          (fun r => (truthyResolve docs r).map (fun t' => (d'.slug, t')))).count (d.slug, t)) = 0 := by
        rw [List.count_eq_zero]
        intro hmem'
        exact hne ((mem_doc_occs_fst docs d' d.slug t hmem').symm)
      rw [hzero, count_flatMap_single docs d t l hnd.2 hmem]
      omega

/-- The multiplicity of (d.slug, t) among all resolved occurrences is the number of captures of d resolving to t. -/
theorem resolvedOccs_count (docs : List Document) (d : Document) (t : String)
    (hnd : (docs.map Document.slug).Nodup) (hd : d ∈ docs) :
    (resolvedOccs docs).count (d.slug, t) = resolvedRefCount docs d t := by
  rw [resolvedOccs, allRefs, resolvedOccs_eq]
  exact count_flatMap_single docs d t docs hnd hd

/-- Mapping occurrences to edges preserves multiplicities. -/
theorem count_map_edge (s t : String) :
    ∀ (l : List (String × String)),
      ((l.map (fun o => Edge.mk o.1 o.2)).count (Edge.mk s t)) = l.count (s, t)
  | [] => rfl
  | (a, b) :: l => by
    rw [List.map_cons, List.count_cons, List.count_cons, count_map_edge s t l]
    by_cases h : ((a, b) : String × String) = (s, t)
    · rcases Prod.mk.injEq .. ▸ h with ⟨rfl, rfl⟩
      simp
    · have h2 : ¬ (Edge.mk a b = Edge.mk s t) := by
        intro he
        cases he
        exact h rfl
      simp [h, h2]

/-- The multiplicity of an edge in the graph artifact equals the multiplicity of the underlying occurrence pair. -/
theorem edges_count (docs : List Document) (s t : String) :
    (generateGraphData docs).edges.count (Edge.mk s t) = (resolvedOccs docs).count (s, t) := by
  rw [generateGraphData_edges]
  exact count_map_edge s t (resolvedOccs docs)

/-- If the lowercased reference text matches some lowercased corpus title, resolution succeeds and returns the slug of a matching document. -/
theorem resolve_case_insensitive (docs : List Document) (raw : String) (d : Document)
    (hd : d ∈ docs) (hlow : lowerStr raw = lowerStr d.title) :
    ∃ d', d' ∈ docs ∧ lowerStr d'.title = lowerStr raw
      ∧ resolveTitle docs raw = some d'.slug := by
  rw [resolveTitle_last_wins]
  have hsome : (docs.reverse.find? (fun d' => lowerStr d'.title == lowerStr raw)).isSome := by
    rw [List.find?_isSome]
    exact ⟨d, List.mem_reverse.mpr hd, by simp [hlow]⟩
  obtain ⟨d', hfind⟩ := Option.isSome_iff_exists.mp hsome
  have hmem := List.mem_of_find?_eq_some hfind
  have hpred := List.find?_some hfind
  rw [hfind]
  exact ⟨d', List.mem_reverse.mp hmem, beq_iff_eq.mp hpred, rfl⟩

/-! ## Claims -/

/-- Claim C1 (counterexample): the title map is built with last-write-wins `Map.set`, so with colliding lowercased titles "Foo" (id "a") and "foo" (id "b") in that corpus order, the reference `[[Foo]]` resolves to "b" — not to the lexicographically smallest identifier "a" — and no duplicate-title warning is recorded. -/
theorem C1_counterexample :
    truthyResolve c1docs "Foo" = some "b"
      ∧ (generateGraphData c1docs).edges = [Edge.mk "c" "b"]
      ∧ (generateBacklinks c1docs).warnings = []
      ∧ slugLt "a" "b" = true ∧ ("b" : String) ≠ "a" := by decide

/-- Claim C1 (amended): title resolution deterministically prefers the document appearing last in corpus order among those whose lowercased titles collide — resolution equals `find?` over the reversed corpus — with no preference for the lexicographically smallest identifier and no collision warning or strict mode. -/
theorem C1_amended (docs : List Document) (raw : String) :
    resolveTitle docs raw
      = (docs.reverse.find? (fun d => lowerStr d.title == lowerStr raw)).map Document.slug :=
  resolveTitle_last_wins docs raw

/-- Claim C2 (counterexample): a body whose only `[[...]]` occurrence lies inside a fenced code span still yields a capture and a graph edge; the regex scan has no verbatim skip-ranges. -/
theorem C2_counterexample :
    linkMatches "```\n[[Apple]]\n```" = ["Apple"]
      ∧ (generateGraphData c2docs).edges = [Edge.mk "b" "a"] := by decide

/-- Claim C2 (amended): the scan treats a `[[...]]` marker inside a fenced code region like any other text — the occurrence resolves, a backlink is recorded from it, and no warning is produced. -/
theorem C2_amended :
    (generateBacklinks c2docs).backlinks = [("a", ["b"])]
      ∧ (generateBacklinks c2docs).warnings = [] := by decide

/-- Claim C3: for every corpus whose scan produces exactly one unresolved occurrence (s, r), the build records exactly one warning naming s and r (in the backlinks pass; the graph pass is silent), the graph omits exactly that one edge, and s remains a node.  The embedded generators are total, so the build completes. -/
theorem C3_unresolved_single (docs : List Document) (s r : String)
    (h : unresolvedRefs docs = [(s, r)]) :
    (generateBacklinks docs).warnings = [(s, r)]
      ∧ (generateGraphData docs).edges.length + 1 = (allRefs docs).length
      ∧ s ∈ (generateGraphData docs).nodes.map Node.id := by
  refine ⟨?_, ?_, ?_⟩
  · rw [generateBacklinks_warnings, h]
  · rw [generateGraphData_edges, List.length_map]
    have hp := length_partition docs (allRefs docs)
    have hu : (unresolvedRefs docs).length = 1 := by rw [h]; rfl
    unfold unresolvedRefs at hu
    unfold resolvedOccs
    omega
  · rw [nodes_ids]
    have hmem : (s, r) ∈ unresolvedRefs docs := by
      rw [h]
      exact List.mem_singleton.mpr rfl
    exact allRefs_fst_mem docs s r (List.mem_of_mem_filter hmem)

/-- Claim C3 witness: the one-document corpus with a single dangling reference. -/
theorem C3_witness :
    unresolvedRefs c3docs = [("a", "Banana")]
      ∧ ((generateBacklinks c3docs).warnings = [("a", "Banana")]
        ∧ (generateGraphData c3docs).edges.length + 1 = (allRefs c3docs).length
        ∧ "a" ∈ (generateGraphData c3docs).nodes.map Node.id) :=
  ⟨by decide, C3_unresolved_single c3docs "a" "Banana" (by decide)⟩

/-- Claim C4: backlink symmetry — a source is in the backlink list of a target exactly when the corresponding directed edge is in the emitted edge list. -/
theorem C4_backlink_symmetry (docs : List Document) (a b : String) :
    a ∈ blLookup (generateBacklinks docs).backlinks b
      ↔ Edge.mk a b ∈ (generateGraphData docs).edges := by
  rw [generateBacklinks_backlinks, generateGraphData_edges, mem_blLookup_foldl]
  constructor
  · rintro (h | h)
    · rw [blLookup_nil] at h
      exact absurd h (List.not_mem_nil a)
    · exact List.mem_map_of_mem _ h
  · intro h
    rcases List.mem_map.mp h with ⟨⟨x, y⟩, hmem, he⟩
    cases he
    exact Or.inr hmem

/-- Claim C5 (counterexample): normalization does not collapse whitespace — a reference differing from the title only in a doubled space fails to resolve and produces an unresolved-link warning instead of an edge. -/
theorem C5_counterexample :
    lowerStr "Foo  Bar" ≠ lowerStr "Foo Bar"
      ∧ resolveTitle c5docs "Foo  Bar" = none
      ∧ (generateBacklinks c5docs).warnings = [("c", "Foo  Bar")]
      ∧ (generateGraphData c5docs).edges = [] := by decide

/-- Claim C5 (amended): normalization is lowercasing only — any reference whose lowercased text equals some document lowercased title resolves, to a document with that lowercased title; whitespace runs must match exactly. -/
theorem C5_amended (docs : List Document) (raw : String) (d : Document)
    (hd : d ∈ docs) (hlow : lowerStr raw = lowerStr d.title) :
    ∃ d', d' ∈ docs ∧ lowerStr d'.title = lowerStr raw
      ∧ resolveTitle docs raw = some d'.slug :=
  resolve_case_insensitive docs raw d hd hlow

/-- Claim C5 witness: a reference differing from the stored title only in letter case resolves. -/
theorem C5_witness :
    ((⟨"a", "Foo Bar", "notes", none, none, ""⟩ : Document) ∈ c5docs
        ∧ lowerStr "FOO bar" = lowerStr "Foo Bar")
      ∧ ∃ d', d' ∈ c5docs ∧ lowerStr d'.title = lowerStr "FOO bar"
          ∧ resolveTitle c5docs "FOO bar" = some d'.slug :=
  ⟨⟨by decide, by decide⟩,
   C5_amended c5docs "FOO bar" ⟨"a", "Foo Bar", "notes", none, none, ""⟩
     (by decide) (by decide)⟩

/-- Claim C6 (counterexample): the emitted node array follows corpus order and is not sorted by identifier. -/
theorem C6_counterexample :
    (generateGraphData c6docs).nodes.map Node.id = ["b", "a"]
      ∧ sortedById ((generateGraphData c6docs).nodes.map Node.id) = false := by decide

/-- Claim C6 (amended): the node and edge arrays follow corpus order and occurrence scan order respectively — deterministic for a fixed corpus snapshot, but not sorted by identifier. -/
theorem C6_amended (docs : List Document) :
    (generateGraphData docs).nodes.map Node.id = docs.map Document.slug
      ∧ (generateGraphData docs).edges = (resolvedOccs docs).map (fun o => Edge.mk o.1 o.2) :=
  ⟨nodes_ids docs, generateGraphData_edges docs⟩

/-- Claim C7: no dangling edges — both endpoints of every emitted edge are node identifiers, and every edge stems from an occurrence whose resolution succeeded; no edge is recorded for a failed resolution. -/
theorem C7_no_dangling (docs : List Document) (e : Edge)
    (he : e ∈ (generateGraphData docs).edges) :
    e.fromId ∈ (generateGraphData docs).nodes.map Node.id
      ∧ e.toId ∈ (generateGraphData docs).nodes.map Node.id
      ∧ ∃ raw, (e.fromId, raw) ∈ allRefs docs ∧ truthyResolve docs raw = some e.toId := by
  rw [generateGraphData_edges] at he
  rcases List.mem_map.mp he with ⟨⟨a, b⟩, hmem, hedge⟩
  cases hedge
  rcases (mem_resolvedOccs docs a b).mp hmem with ⟨raw, hraw, hres⟩
  refine ⟨?_, ?_, ⟨raw, hraw, hres⟩⟩
  · rw [nodes_ids]
    exact allRefs_fst_mem docs a raw hraw
  · rw [nodes_ids]
    exact resolveTitle_mem_slugs docs raw b (truthyResolve_some docs raw b hres).1

/-- Claim C7 witness: the single resolved edge of a two-document corpus. -/
theorem C7_witness :
    (Edge.mk "a" "b") ∈ (generateGraphData c7docs).edges
      ∧ ((Edge.mk "a" "b").fromId ∈ (generateGraphData c7docs).nodes.map Node.id
        ∧ (Edge.mk "a" "b").toId ∈ (generateGraphData c7docs).nodes.map Node.id
        ∧ ∃ raw, ((Edge.mk "a" "b").fromId, raw) ∈ allRefs c7docs
            ∧ truthyResolve c7docs raw = some (Edge.mk "a" "b").toId) :=
  ⟨by decide, C7_no_dangling c7docs (Edge.mk "a" "b") (by decide)⟩

/-- Claim C8 (counterexample, spec-modelled scorer): with the field boosts the code configures (title 10, others 1) and the ranking of §4.5 (term frequency weighted by field multiplier), a body-only document with eleven term occurrences scores 11 and outranks a title-only document scoring 10, so the title-only document does not rank strictly above. -/
theorem C8_counterexample :
    (generateSearchIndex c8docs).documents = [c8docA, c8docB]
      ∧ tf "apple" c8docA.title = 1 ∧ tf "apple" c8docA.description = 0
      ∧ tf "apple" c8docA.content = 0
      ∧ tf "apple" c8docB.title = 0 ∧ tf "apple" c8docB.description = 0
      ∧ 1 ≤ tf "apple" c8docB.content
      ∧ ¬ ranksAbove "apple" c8docA c8docB := by decide

/-- Claim C8 (amended): a document matching the term in its title ranks strictly above a body-only match provided the body term frequency stays below the boosted title score (tf of the body under 10 times tf of the title). -/
theorem C8_amended (docs : List Document) (term : String) (a b : SearchDoc)
    (ha : a ∈ (generateSearchIndex docs).documents)
    (hb : b ∈ (generateSearchIndex docs).documents)
    (hta : 1 ≤ tf term a.title)
    (htb : tf term b.title = 0) (hdb : tf term b.description = 0)
    (hbound : tf term b.content < titleBoost * tf term a.title) :
    ranksAbove term a b := by
  left
  simp only [score, titleBoost] at hbound ⊢
  omega

/-- Claim C8 witness: a title-only match against a body-only match of term frequency 2. -/
theorem C8_witness :
    (c8wA ∈ (generateSearchIndex c8wdocs).documents
        ∧ c8wB ∈ (generateSearchIndex c8wdocs).documents
        ∧ 1 ≤ tf "apple" c8wA.title
        ∧ tf "apple" c8wB.title = 0 ∧ tf "apple" c8wB.description = 0
        ∧ tf "apple" c8wB.content < titleBoost * tf "apple" c8wA.title)
      ∧ ranksAbove "apple" c8wA c8wB :=
  ⟨⟨by decide, by decide, by decide, by decide, by decide, by decide⟩,
   C8_amended c8wdocs "apple" c8wA c8wB (by decide) (by decide) (by decide) (by decide)
     (by decide) (by decide)⟩

/-- Claim C9: idempotence — the three artifact generators are pure functions of the corpus snapshot, so two builds over equal corpora produce identical artifact byte streams. -/
theorem C9_idempotent (docs docs' : List Document) (h : docs = docs') :
    buildArtifacts docs = buildArtifacts docs' := by rw [h]

/-- Claim C9 witness: two builds of the same two-document corpus. -/
theorem C9_witness :
    c9docs = c9docs ∧ buildArtifacts c9docs = buildArtifacts c9docs :=
  ⟨rfl, C9_idempotent c9docs c9docs rfl⟩

/-- Claim C10: a document with k ≥ 2 captures resolving to the same target contributes exactly k identical (from, to) edges to the graph artifact, while the target backlink array lists the source exactly once. -/
theorem C10_edges_per_occurrence (docs : List Document) (d : Document) (t : String) (k : Nat)
    (hnd : (docs.map Document.slug).Nodup) (hd : d ∈ docs)
    (hk : resolvedRefCount docs d t = k) (h2 : 2 ≤ k) :
    (generateGraphData docs).edges.count (Edge.mk d.slug t) = k
      ∧ (blLookup (generateBacklinks docs).backlinks t).count d.slug = 1 := by
  constructor
  · rw [edges_count, resolvedOccs_count docs d t hnd hd, hk]
  · have hcnt : (resolvedOccs docs).count (d.slug, t) = k := by
      rw [resolvedOccs_count docs d t hnd hd, hk]
    have hmem : (d.slug, t) ∈ resolvedOccs docs := by
      by_contra hno
      have h0 : (resolvedOccs docs).count (d.slug, t) = 0 := List.count_eq_zero.mpr hno
      omega
    have hmem2 : d.slug ∈ blLookup (generateBacklinks docs).backlinks t := by
      rw [generateBacklinks_backlinks, mem_blLookup_foldl]
      exact Or.inr hmem
    have hnodup : ∀ e ∈ (generateBacklinks docs).backlinks, e.2.Nodup := by
      rw [generateBacklinks_backlinks]
      refine foldl_valsNodup (resolvedOccs docs) [] ?_
      intro e he
      exact absurd he (List.not_mem_nil e)
    exact count_blLookup_eq_one d.slug t _ hnodup hmem2

/-- Claim C10 witness: a document referencing the same target twice. -/
theorem C10_witness :
    ((c10docs.map Document.slug).Nodup ∧ c10doc ∈ c10docs
        ∧ resolvedRefCount c10docs c10doc "b" = 2 ∧ 2 ≤ 2)
      ∧ ((generateGraphData c10docs).edges.count (Edge.mk c10doc.slug "b") = 2
        ∧ (blLookup (generateBacklinks c10docs).backlinks "b").count c10doc.slug = 1) :=
  ⟨⟨by decide, by decide, by decide, by decide⟩,
   C10_edges_per_occurrence c10docs c10doc "b" 2 (by decide) (by decide) (by decide)
     (by decide)⟩

end Garden
